import Mathlib

/-!
# GridIncremental — verification of the simulation core

A shallow embedding of the simulation engine of the GridIncremental game
(`src/core/Grid.js`, `src/core/GameState.js`, `src/data/ranks.js`,
`src/data/upgrades.js`, `src/data/colors.js`, `src/systems/ContractSystem.js`,
`src/systems/AutoPainterSystem.js`), together with theorems checking the
specification's claims against it.

Modelling conventions:
* JavaScript `null`/`undefined` cell values are `Option` (`none` = empty cell).
* The sparse `Map` keyed by the string `"x,y"` is an association list keyed by
  the integer pair `(x, y)`; for integer coordinates the string key is in
  bijection with the pair, and `Map.set` replaces in place while `Map.delete`
  removes the key, which `cellsSet`/`cellsErase` mirror.
* JavaScript numbers are `Int`/`Nat` where the code only ever holds integers,
  and `ℚ` where fractional arithmetic occurs (upgrade cost multipliers,
  reward multipliers).  The concrete multipliers appearing in the catalogs
  (1, 1.5, 2.0, 2.2, 2.5, 0.15) are modelled as exact rationals.
* Event emission is not observable in the claims below except for
  `Grid.clear`, whose emitted/not-emitted flag is returned as a `Bool`.
-/

/-- Color identifiers (the `id` strings of `src/data/colors.js`). -/
abbrev Color := String

/-- A grid cell value: `none` is an empty cell (JS `null`). -/
abbrev Cell := Option Color

/-- The sparse cell store of `Grid` (`this.cells`, a JS `Map` keyed by
`"x,y"`): an association list from integer coordinates to colors. -/
abbrev CellMap := List ((Int × Int) × Color)

/-- `Map.get(key)` (`undefined` becomes `none`). -/
def cellsGet : CellMap → (Int × Int) → Option Color
  | [], _ => none
  | e :: t, k => if e.1 = k then some e.2 else cellsGet t k

/-- `Map.set(key, v)`: replace in place if the key is present, else append. -/
def cellsSet (m : CellMap) (k : Int × Int) (v : Color) : CellMap :=
  match m with
  | [] => [(k, v)]
  | e :: t => if e.1 = k then (k, v) :: t else e :: cellsSet t k v

/-- `Map.delete(key)`. -/
def cellsErase (m : CellMap) (k : Int × Int) : CellMap :=
  m.filter (fun e => ¬ e.1 = k)

@[simp] theorem cellsGet_nil (k : Int × Int) : cellsGet [] k = none := rfl

@[simp] theorem cellsGet_cellsSet_self (m : CellMap) (k : Int × Int) (v : Color) :
    cellsGet (cellsSet m k v) k = some v := by
  induction m with
  | nil => simp [cellsSet, cellsGet]
  | cons e t ih =>
    by_cases h : e.1 = k
    · simp [cellsSet, h, cellsGet]
    · simpa [cellsSet, h, cellsGet] using ih

@[simp] theorem cellsGet_cellsErase_self (m : CellMap) (k : Int × Int) :
    cellsGet (cellsErase m k) k = none := by
  induction m with
  | nil => rfl
  | cons e t ih =>
    by_cases h : e.1 = k
    · simpa [cellsErase, h] using ih
    · simpa [cellsErase, cellsGet, h] using ih

theorem cellsGet_cellsSet_ne (m : CellMap) (k k' : Int × Int) (v : Color)
    (h : k' ≠ k) : cellsGet (cellsSet m k v) k' = cellsGet m k' := by
  induction m with
  | nil => simp [cellsSet, cellsGet, Ne.symm h]
  | cons e t ih =>
    by_cases he : e.1 = k
    · subst he
      simp [cellsSet, cellsGet, Ne.symm h]
    · by_cases he' : e.1 = k'
      · simp [cellsSet, he, cellsGet, he', h]
      · simpa [cellsSet, he, cellsGet, he', h] using ih

theorem cellsGet_cellsErase_ne (m : CellMap) (k k' : Int × Int)
    (h : k' ≠ k) : cellsGet (cellsErase m k) k' = cellsGet m k' := by
  induction m with
  | nil => rfl
  | cons e t ih =>
    by_cases he : e.1 = k
    · subst he
      simpa [cellsErase, cellsGet, Ne.symm h] using ih
    · by_cases he' : e.1 = k'
      · simp [cellsErase, he, cellsGet, he', h]
      · simpa [cellsErase, he, cellsGet, he', h] using ih

theorem mem_cellsSet (m : CellMap) (k : Int × Int) (v : Color) (e : (Int × Int) × Color)
    (h : e ∈ cellsSet m k v) : e ∈ m ∨ e = (k, v) := by
  induction m with
  | nil => simpa [cellsSet] using h
  | cons e' t ih =>
    by_cases he : e'.1 = k
    · simp only [cellsSet, he, if_pos] at h
      rcases List.mem_cons.mp h with h | h
      · exact Or.inr h
      · exact Or.inl (List.mem_cons_of_mem _ h)
    · simp only [cellsSet, he, if_neg, not_false_iff] at h
      rcases List.mem_cons.mp h with h | h
      · exact Or.inl (h ▸ List.mem_cons_self _ _)
      · rcases ih h with h | h
        · exact Or.inl (List.mem_cons_of_mem _ h)
        · exact Or.inr h

theorem mem_cellsErase (m : CellMap) (k : Int × Int) (e : (Int × Int) × Color)
    (h : e ∈ cellsErase m k) : e ∈ m :=
  List.mem_of_mem_filter h

/-- One undo-history entry (`{ x, y, oldColor, newColor }` in `Grid.setCell`). -/
structure HistEntry where
  x : Int
  y : Int
  oldColor : Cell
  newColor : Cell
  deriving Repr, DecidableEq

/-- The `Grid` class of `src/core/Grid.js`: sparse cell store with bounded
undo history.  `maxHistory` is the constructor constant 50. -/
structure Grid where
  width : Nat
  height : Nat
  cells : CellMap
  history : List HistEntry
  maxHistory : Nat
  deriving Repr, DecidableEq

namespace Grid

/-- `new Grid(width, height)` (constructor defaults 4×4, `maxHistory = 50`). -/
def mk' (width : Nat := 4) (height : Nat := 4) : Grid :=
  { width := width, height := height, cells := [], history := [], maxHistory := 50 }

/-- `Grid.isValid(x, y)`. -/
def isValid (g : Grid) (x y : Int) : Bool :=
  decide (0 ≤ x) && decide (x < (g.width : Int)) && decide (0 ≤ y) && decide (y < (g.height : Int))

/-- `Grid.getCell(x, y)` — `none` for invalid coordinates or empty cells. -/
def getCell (g : Grid) (x y : Int) : Cell :=
  if g.isValid x y then cellsGet g.cells (x, y) else none

/-- `Grid.expand(newWidth, newHeight)`: fails when either dimension would
shrink; on success sets the dimensions and discards all history. -/
def expand (g : Grid) (newWidth newHeight : Nat) : Grid × Bool :=
  if newWidth < g.width ∨ newHeight < g.height then (g, false)
  else ({ g with width := newWidth, height := newHeight, history := [] }, true)

/-- `Grid.setCell(x, y, color, recordHistory)`: no-op returning `false` on
invalid coordinates or an unchanged color; otherwise pushes a history entry
(evicting the oldest past `maxHistory`) and updates the sparse store. -/
def setCell (g : Grid) (x y : Int) (color : Cell) (recordHistory : Bool := true) :
    Grid × Bool :=
  if ¬ g.isValid x y then (g, false)
  else
    let oldColor := cellsGet g.cells (x, y)
    if oldColor = color then (g, false)
    else
      let history :=
        if recordHistory then
          let h := g.history ++ [⟨x, y, oldColor, color⟩]
          if g.maxHistory < h.length then h.drop 1 else h
        else g.history
      let cells :=
        match color with
        | none => cellsErase g.cells (x, y)
        | some c => cellsSet g.cells (x, y) c
      ({ g with cells := cells, history := history }, true)

/-- The loop body of `Grid.setCells(changes, recordHistory)` (before the
final history trim): per-cell semantics of `setCell`, but history entries are
pushed without per-push eviction, and an actual-changes count is returned. -/
def setCellsGo (g : Grid) (changes : List (Int × Int × Cell)) (recordHistory : Bool)
    (count : Nat) : Grid × Nat :=
  match changes with
  | [] => (g, count)
  | (x, y, color) :: rest =>
    if ¬ g.isValid x y then setCellsGo g rest recordHistory count
    else
      let oldColor := cellsGet g.cells (x, y)
      if oldColor = color then setCellsGo g rest recordHistory count
      else
        let history :=
          if recordHistory then g.history ++ [⟨x, y, oldColor, color⟩] else g.history
        let cells :=
          match color with
          | none => cellsErase g.cells (x, y)
          | some c => cellsSet g.cells (x, y) c
        setCellsGo { g with cells := cells, history := history } rest recordHistory (count + 1)

/-- `Grid.setCells(changes, recordHistory)`: the loop, then
`history.splice(0, history.length - maxHistory)` when over capacity. -/
def setCells (g : Grid) (changes : List (Int × Int × Cell)) (recordHistory : Bool := true) :
    Grid × Nat :=
  let (g', count) := setCellsGo g changes recordHistory 0
  let g'' :=
    if g'.maxHistory < g'.history.length then
      { g' with history := g'.history.drop (g'.history.length - g'.maxHistory) }
    else g'
  (g'', count)

/-- `Grid.undo()`: pops the most recent history entry and restores the prior
color; `false` when the history is empty. -/
def undo (g : Grid) : Grid × Bool :=
  match g.history.getLast? with
  | none => (g, false)
  | some e =>
    let cells :=
      match e.oldColor with
      | none => cellsErase g.cells (e.x, e.y)
      | some c => cellsSet g.cells (e.x, e.y) c
    ({ g with cells := cells, history := g.history.dropLast }, true)

/-- `Grid.clear()`: removes all cells and history; early-returns (emitting no
event) when the cell store is already empty.  The `Bool` records whether the
`gridCleared` event was emitted. -/
def clear (g : Grid) : Grid × Bool :=
  if g.cells = [] then (g, false)
  else ({ g with cells := [], history := [] }, true)

end Grid

/-- Cumulative statistics (`this.stats` of `GameState`). -/
structure Stats where
  totalCellsFilled : Nat
  totalMoneyEarned : Int
  totalContractsCompleted : Nat
  playTime : Nat
  deriving Repr, DecidableEq

/-- The initial stats object of the `GameState` constructor. -/
def Stats.init : Stats :=
  { totalCellsFilled := 0, totalMoneyEarned := 0, totalContractsCompleted := 0, playTime := 0 }

/-- A contract as built by `ContractSystem.generateContract`.  `createdAt`
(wall clock) is omitted; `id` is the numeric counter behind the
`contract_<n>` id string. -/
structure Contract where
  id : Nat
  rankLevel : Nat
  rankName : String
  pattern : List (List Cell)
  reward : Int
  cellCount : Nat
  deriving Repr, DecidableEq

/-- The `GameState` aggregate of `src/core/GameState.js`.  `unlockedColors`
is a JS `Set` modelled as a list with set semantics (membership queries via
`contains`, insertion only when absent); `upgrades` and `automationEnabled`
are JS objects modelled as association lists. -/
structure GameState where
  grid : Grid
  gridLevel : Nat
  money : Int
  unlockedColors : List Color
  selectedColor : Color
  upgrades : List (String × Nat)
  automationEnabled : List (String × Bool)
  activeContract : Option Contract
  completedContracts : Nat
  stats : Stats
  deriving Repr, DecidableEq

namespace GameState

/-- The `GameState` constructor. -/
def init : GameState :=
  { grid := Grid.mk' 4 4
    gridLevel := 1
    money := 0
    unlockedColors := ["black", "white"]
    selectedColor := "black"
    upgrades := []
    automationEnabled := []
    activeContract := none
    completedContracts := 0
    stats := Stats.init }

/-- `GameState.addMoney(amount)`: rejects non-positive amounts. -/
def addMoney (s : GameState) (amount : Int) : GameState × Bool :=
  if amount ≤ 0 then (s, false)
  else ({ s with money := s.money + amount,
                 stats := { s.stats with totalMoneyEarned := s.stats.totalMoneyEarned + amount } },
        true)

/-- `GameState.spendMoney(amount)`: rejects non-positive amounts and
insufficient balance. -/
def spendMoney (s : GameState) (amount : Int) : GameState × Bool :=
  if amount ≤ 0 ∨ s.money < amount then (s, false)
  else ({ s with money := s.money - amount }, true)

/-- `GameState.hasColor(colorId)`. -/
def hasColor (s : GameState) (colorId : Color) : Bool :=
  s.unlockedColors.contains colorId

/-- `GameState.unlockColor(colorId)`: no-op returning `false` when already
unlocked. -/
def unlockColor (s : GameState) (colorId : Color) : GameState × Bool :=
  if s.unlockedColors.contains colorId then (s, false)
  else ({ s with unlockedColors := s.unlockedColors ++ [colorId] }, true)

/-- `GameState.selectColor(colorId)`: fails for colors not unlocked. -/
def selectColor (s : GameState) (colorId : Color) : GameState × Bool :=
  if ¬ s.unlockedColors.contains colorId then (s, false)
  else ({ s with selectedColor := colorId }, true)

/-- `GameState.getUpgradeLevel(upgradeId)` (`0` = not owned). -/
def getUpgradeLevel (s : GameState) (upgradeId : String) : Nat :=
  ((s.upgrades.find? (fun e => e.1 = upgradeId)).map (·.2)).getD 0

/-- `GameState.expandGrid(newWidth, newHeight)`. -/
def expandGrid (s : GameState) (newWidth newHeight : Nat) : GameState × Bool :=
  let (g, success) := s.grid.expand newWidth newHeight
  if success then ({ s with grid := g, gridLevel := s.gridLevel + 1 }, true)
  else ({ s with grid := g }, false)

/-- `pattern[y]?.[x] ?? null`: out-of-range row or column indexing yields
`undefined`, coalesced to `null`; a stored `null` stays `null`. -/
def patternAt (pattern : List (List Cell)) (x y : Nat) : Cell :=
  ((pattern.get? y).bind fun row => row.get? x).join

/-- The `allMatch` accumulator of `GameState.checkContractCompletion`: every
grid coordinate agrees exactly with the pattern.  (The source loop breaks
early once `allMatch` is false and a wrongly-filled cell was seen; the early
exit cannot change the final value of `allMatch`.) -/
def gridMatchesPattern (g : Grid) (pattern : List (List Cell)) : Bool :=
  (List.range g.height).all fun y =>
    (List.range g.width).all fun x =>
      patternAt pattern x y = g.getCell (x : Int) (y : Int)

/-- `GameState.completeActiveContract()`: pays the reward, clears the active
contract, bumps the counters and clears the grid. -/
def completeActiveContract (s : GameState) : GameState × Bool :=
  match s.activeContract with
  | none => (s, false)
  | some contract =>
    let s1 := (s.addMoney contract.reward).1
    let s2 := { s1 with
      activeContract := none
      completedContracts := s1.completedContracts + 1
      stats := { s1.stats with
        totalContractsCompleted := s1.stats.totalContractsCompleted + 1 } }
    ({ s2 with grid := (s2.grid.clear).1 }, true)

/-- `GameState.checkContractCompletion()`: runs after every cell mutation;
completes the active contract exactly when the whole grid matches the
pattern. -/
def checkContractCompletion (s : GameState) : GameState :=
  match s.activeContract with
  | none => s
  | some contract =>
    if gridMatchesPattern s.grid contract.pattern then (s.completeActiveContract).1
    else s

/-- The `cellChanged` listener the `GameState` constructor installs on its
grid: bump `stats.totalCellsFilled`, re-emit, then check completion. -/
def onCellChanged (s : GameState) : GameState :=
  checkContractCompletion
    { s with stats := { s.stats with totalCellsFilled := s.stats.totalCellsFilled + 1 } }

/-- A manual (or auto-painter) edit: `grid.setCell(x, y, color)` followed by
the `cellChanged` listener when the grid reports a change. -/
def setCell (s : GameState) (x y : Int) (color : Cell) : GameState × Bool :=
  let (g, changed) := s.grid.setCell x y color true
  if changed then ((onCellChanged { s with grid := g }), true)
  else ({ s with grid := g }, false)

/-- `GameState.setActiveContract(contract)`: installs the contract and clears
the grid. -/
def setActiveContract (s : GameState) (contract : Contract) : GameState :=
  { s with activeContract := some contract, grid := (s.grid.clear).1 }

/-- `GameState.clearContract()`. -/
def clearContract (s : GameState) : GameState :=
  { s with activeContract := none, grid := (s.grid.clear).1 }

end GameState

/-- A rank catalog entry (`src/data/ranks.js`). -/
structure Rank where
  level : Nat
  name : String
  contractsRequired : Nat
  minGridSize : Nat
  requiredColors : List Color
  patternComplexity : String
  rewardMultiplier : ℚ
  deriving Repr, DecidableEq, Inhabited

/-- The `RANKS` table. -/
def RANKS : List Rank :=
  [ ⟨1, "Novice", 0, 4, ["black", "white"], "simple", 1⟩,
    ⟨2, "Apprentice", 5, 4, ["black", "white"], "basic", 6/5⟩,
    ⟨3, "Journeyman", 10, 6, ["black", "white"], "medium", 3/2⟩,
    ⟨4, "Artisan", 18, 6, ["black", "white", "red"], "medium", 9/5⟩,
    ⟨5, "Expert", 28, 8, ["black", "white", "red", "blue"], "complex", 11/5⟩,
    ⟨6, "Master", 40, 8, ["black", "white", "red", "blue", "green"], "complex", 14/5⟩,
    ⟨7, "Grandmaster", 55, 10, ["black", "white", "red", "blue", "green", "yellow"],
      "advanced", 7/2⟩,
    ⟨8, "Virtuoso", 75, 12, ["black", "white", "red", "blue", "green", "yellow", "purple"],
      "advanced", 9/2⟩,
    ⟨9, "Legend", 100, 16,
      ["black", "white", "red", "blue", "green", "yellow", "purple", "orange"], "expert", 6⟩,
    ⟨10, "Mythic", 150, 20,
      ["black", "white", "red", "blue", "green", "yellow", "purple", "orange", "cyan", "pink"],
      "master", 8⟩ ]

/-- `getRank(level)`: catalog lookup, falling back to `RANKS[0]` (Novice)
when the level is not present. -/
def getRank (level : Nat) : Rank :=
  match RANKS.find? (fun r => r.level = level) with
  | some r => r
  | none => RANKS.headI

/-- `getMaxRank()`. -/
def getMaxRank : Nat :=
  (RANKS.getLast?.map (·.level)).getD 0

/-- `canAccessRank(rank, completedContracts, gridSize, unlockedColors)`. -/
def canAccessRank (rank : Rank) (completedContracts gridSize : Nat)
    (unlockedColors : List Color) : Bool :=
  if completedContracts < rank.contractsRequired then false
  else if gridSize < rank.minGridSize then false
  else rank.requiredColors.all fun c => unlockedColors.contains c

/-- `getComplexityRange(complexity)`. -/
def getComplexityRange (complexity : String) : Nat × Nat :=
  match complexity with
  | "simple" => (2, 4)
  | "basic" => (4, 8)
  | "medium" => (6, 12)
  | "complex" => (10, 20)
  | "advanced" => (15, 30)
  | "expert" => (25, 50)
  | "master" => (40, 80)
  | _ => (2, 4)

/-- `getBaseReward(complexity)`. -/
def getBaseReward (complexity : String) : Nat :=
  match complexity with
  | "simple" => 5
  | "basic" => 8
  | "medium" => 12
  | "complex" => 18
  | "advanced" => 25
  | "expert" => 35
  | "master" => 50
  | _ => 5

/-- The ids of the color catalog (`src/data/colors.js`). -/
def COLOR_IDS : List Color :=
  ["black", "white", "red", "blue", "green", "yellow", "orange", "purple",
   "pink", "cyan", "gold", "silver", "brown", "navy", "rainbow", "neon"]

/-- An upgrade catalog entry (`src/data/upgrades.js`); only the fields the
cost computation reads are embedded. -/
structure UpgradeDef where
  id : String
  name : String
  baseCost : ℚ
  costMultiplier : ℚ
  maxLevel : Nat
  deriving Repr, DecidableEq

/-- The `UPGRADES` catalog. -/
def UPGRADES : List UpgradeDef :=
  [ ⟨"hold_to_paint", "Hold to Paint", 25, 1, 1⟩,
    ⟨"money_boost", "Money Boost", 40, 2, 20⟩,
    ⟨"multi_brush", "Multi-Brush", 200, 5/2, 5⟩,
    ⟨"undo_buffer", "Memory", 75, 3/2, 5⟩,
    ⟨"contract_preview", "Contract Preview", 150, 1, 1⟩,
    ⟨"precision_mode", "Precision Mode", 100, 1, 1⟩,
    ⟨"auto_start_contract", "Auto-Start Contract", 50, 1, 1⟩,
    ⟨"speed_boost", "Speed Boost", 500, 11/5, 10⟩ ]

/-- `AUTO_PAINTER_CONFIG`. -/
structure AutoPainterConfig where
  baseCost : ℚ
  costMultiplier : ℚ
  maxLevel : Nat
  baseInterval : ℚ
  intervalReductionPerLevel : ℚ
  deriving Repr, DecidableEq

def AUTO_PAINTER_CONFIG : AutoPainterConfig :=
  { baseCost := 75, costMultiplier := 3/2, maxLevel := 5,
    baseInterval := 5000, intervalReductionPerLevel := 3/20 }

/-- `isAutoPainterUpgrade(upgradeId)`: `upgradeId.startsWith('auto_painter_')`,
expressed on the character lists so it evaluates inside the kernel. -/
def isAutoPainterUpgrade (upgradeId : String) : Bool :=
  "auto_painter_".toList.isPrefixOf upgradeId.toList

/-- `getUpgradeCost(upgradeId, currentLevel)`; the JS `Infinity` returned
for unknown ids is `none`. -/
def getUpgradeCost (upgradeId : String) (currentLevel : Nat) : Option Int :=
  if isAutoPainterUpgrade upgradeId then
    some ⌊AUTO_PAINTER_CONFIG.baseCost * AUTO_PAINTER_CONFIG.costMultiplier ^ currentLevel⌋
  else
    match UPGRADES.find? (fun u => u.id = upgradeId) with
    | none => none
    | some u => some ⌊u.baseCost * u.costMultiplier ^ currentLevel⌋

namespace ContractSystem

/-- The body of the `getHighestAccessibleRank` loop: walk levels upward,
remembering the last accessible one, stopping at the first inaccessible
rank.  `fuel` counts the remaining loop iterations (`getMaxRank` in total,
for levels `1 .. getMaxRank`). -/
def highestLoop (s : GameState) (gridSize : Nat) : Nat → Nat → Nat → Nat
  | _, 0, highest => highest
  | level, fuel + 1, highest =>
    if canAccessRank (getRank level) s.completedContracts gridSize s.unlockedColors then
      highestLoop s gridSize (level + 1) fuel level
    else highest

/-- `ContractSystem.getHighestAccessibleRank()`. -/
def getHighestAccessibleRank (s : GameState) : Nat :=
  highestLoop s (min s.grid.width s.grid.height) 1 getMaxRank 1

/-- `ContractSystem.countPatternCells(pattern)`. -/
def countPatternCells (pattern : List (List Cell)) : Nat :=
  (pattern.map fun row => (row.filter fun c => c.isSome).length).sum

/-- `ContractSystem.getMoneyBoostMultiplier()`. -/
def getMoneyBoostMultiplier (s : GameState) : ℚ :=
  1 + (s.getUpgradeLevel "money_boost" : ℚ) * (15/100)

/-- `ContractSystem.generateContract(rankLevel)`.  `counter` is
`this.contractIdCounter`; `patternOracle` stands for the `Math.random`-driven
`generatePattern(rank, gridSize)` (its result is irrelevant to the guard
logic verified here).  The JS guard `if (!rank) return null` never fires,
because `getRank` falls back to `RANKS[0]` for unknown levels. -/
def generateContract (s : GameState) (counter : Nat)
    (patternOracle : Rank → Nat → List (List Cell)) (rankLevel : Option Nat) :
    Option Contract :=
  let level := match rankLevel with
    | none => getHighestAccessibleRank s
    | some l => l
  let rank := getRank level
  let gridSize := min s.grid.width s.grid.height
  if ¬ canAccessRank rank s.completedContracts gridSize s.unlockedColors then none
  else
    let pattern := patternOracle rank gridSize
    let cellCount := countPatternCells pattern
    let baseReward := getBaseReward rank.patternComplexity
    let reward : Int :=
      ⌊(baseReward : ℚ) * rank.rewardMultiplier * getMoneyBoostMultiplier s *
        ((cellCount : ℚ) / 4)⌋
    some { id := counter + 1, rankLevel := rank.level, rankName := rank.name,
           pattern := pattern, reward := max reward 1, cellCount := cellCount }

end ContractSystem

namespace AutoPainterSystem

/-- `AutoPainterSystem.getInterval(painterId)` (milliseconds, exact rational
arithmetic). -/
def getInterval (s : GameState) (painterId : String) : ℚ :=
  let level := s.getUpgradeLevel painterId
  let speedBoostLevel := s.getUpgradeLevel "speed_boost"
  let interval := AUTO_PAINTER_CONFIG.baseInterval
  let levelReduction := 1 - (level : ℚ) * AUTO_PAINTER_CONFIG.intervalReductionPerLevel
  let interval := interval * max (1/5) levelReduction
  let speedReduction := 1 - (speedBoostLevel : ℚ) * (1/4)
  let interval := interval * max (1/10) speedReduction
  max 200 interval

/-- `AutoPainterSystem.paintNextCell(colorId)`: scan rows top-to-bottom and
columns left-to-right for the first cell where the contract pattern expects
`colorId` and the grid does not yet hold it, and paint it through the same
`grid.setCell` path as a manual edit (here `GameState.setCell`, which also
runs the `cellChanged` listener and hence the completion check). -/
def paintNextCell (s : GameState) (colorId : Color) : GameState × Bool :=
  match s.activeContract with
  | none => (s, false)
  | some contract =>
    let target := (List.range s.grid.height).findSome? fun y =>
      (List.range s.grid.width).findSome? fun x =>
        if GameState.patternAt contract.pattern x y = some colorId ∧
            s.grid.getCell (x : Int) (y : Int) ≠ some colorId
        then some (x, y) else none
    match target with
    | none => (s, false)
    | some (x, y) => ((s.setCell (x : Int) (y : Int) (some colorId)).1, true)

end AutoPainterSystem

/-- JS `v || d` for numbers that are `undefined` or `0` (both falsy). -/
def jsOrNat (v : Option Nat) (d : Nat) : Nat :=
  match v with
  | none => d
  | some 0 => d
  | some n => n

/-- JS `v || d` for strings (`undefined` and `""` are falsy). -/
def jsOrStr (v : Option String) (d : String) : String :=
  match v with
  | none => d
  | some "" => d
  | some t => t

/-- The `cells` field of a grid save: either the sparse
`[[x, y, color], ...]` format or the legacy flat row-major array.  `none` at
the `GridData.cells` level models a non-array value, which loads nothing. -/
inductive CellsData where
  | sparse (entries : List (Int × Int × Cell))
  | flat (entries : List Cell)
  deriving Repr, DecidableEq

/-- A serialized grid (`Grid.serialize()` output shape, loosely typed as the
loader accepts it). -/
structure GridData where
  width : Option Nat
  height : Option Nat
  cells : Option CellsData
  deriving Repr, DecidableEq

/-- The sparse-format loading loop of `Grid.deserialize`: entries with a
`null` color are skipped; no bounds check is applied. -/
def loadSparse : List (Int × Int × Cell) → CellMap → CellMap
  | [], m => m
  | (x, y, c) :: rest, m =>
    loadSparse rest (match c with | none => m | some col => cellsSet m (x, y) col)

/-- The legacy flat-format loading loop of `Grid.deserialize`:
`x = i % width`, `y = ⌊i / width⌋`. -/
def loadFlat : List Cell → Nat → Nat → CellMap → CellMap
  | [], _, _, m => m
  | c :: rest, i, w, m =>
    loadFlat rest (i + 1) w
      (match c with
       | none => m
       | some col => cellsSet m (((i % w : Nat) : Int), ((i / w : Nat) : Int)) col)

/-- `Grid.deserialize(data)`: replaces the dimensions with the saved ones
(defaulting falsy values to 4), clears the store and history, then loads the
saved cells. -/
def Grid.deserialize (g : Grid) (data : GridData) : Grid :=
  let width := jsOrNat data.width 4
  let height := jsOrNat data.height 4
  let cells : CellMap :=
    match data.cells with
    | none => []
    | some (.sparse entries) => loadSparse entries []
    | some (.flat entries) => loadFlat entries 0 width []
  { g with width := width, height := height, cells := cells, history := [] }

/-- A versioned save document as `GameState.deserialize` reads it.  Missing
fields are `none`; `version` is `none` when absent and `some v` for a
numeric tag. -/
structure SaveData where
  version : Option Int
  grid : Option GridData
  gridLevel : Option Nat
  money : Option Int
  unlockedColors : Option (List Color)
  selectedColor : Option Color
  upgrades : Option (List (String × Nat))
  automationEnabled : Option (List (String × Bool))
  activeContract : Option Contract
  completedContracts : Option Nat
  stats : Option Stats
  deriving Repr, DecidableEq

/-- `GameState.deserialize(data)`: rejects (returning `false`, mutating
nothing) unless the version tag is 2, 3 or 4; otherwise re-expands the grid
to the saved dimensions, loads the grid and defaults every missing field.
The result is `none` for the one path where the JS throws (a passing version
check with no `grid` object — `Grid.deserialize` would dereference
`undefined`; `SaveManager.load` catches the exception). -/
def GameState.deserialize (s : GameState) (data : Option SaveData) :
    Option (GameState × Bool) :=
  match data with
  | none => some (s, false)
  | some d =>
    if ¬ (d.version = some 2 ∨ d.version = some 3 ∨ d.version = some 4) then
      some (s, false)
    else
      let savedWidth := jsOrNat (d.grid.bind (·.width)) 4
      let savedHeight := jsOrNat (d.grid.bind (·.height)) 4
      let g0 :=
        if savedWidth ≠ s.grid.width ∨ savedHeight ≠ s.grid.height then
          (s.grid.expand savedWidth savedHeight).1
        else s.grid
      match d.grid with
      | none => none
      | some gd =>
        some ({ grid := g0.deserialize gd,
                gridLevel := jsOrNat d.gridLevel 1,
                money := d.money.getD 0,
                unlockedColors := d.unlockedColors.getD ["black", "white"],
                selectedColor := jsOrStr d.selectedColor "black",
                upgrades := d.upgrades.getD [],
                automationEnabled := d.automationEnabled.getD [],
                activeContract := d.activeContract,
                completedContracts := d.completedContracts.getD 0,
                stats := d.stats.getD Stats.init }, true)

section Helpers

/-- Geometric cost growth: when `1 ≤ b (m - 1)` consecutive floored costs
are strictly increasing. -/
theorem floor_geom_strict (b m : ℚ) (hm : 1 ≤ m) (h1 : 1 ≤ b * (m - 1)) (L : Nat) :
    ⌊b * m ^ L⌋ < ⌊b * m ^ (L + 1)⌋ := by
  have hpow : (1 : ℚ) ≤ m ^ L := one_le_pow₀ hm
  have key : b * m ^ L + 1 ≤ b * m ^ (L + 1) := by
    have hdiff : b * m ^ (L + 1) - b * m ^ L = (b * (m - 1)) * m ^ L := by ring
    nlinarith [mul_le_mul h1 hpow (by norm_num) (le_trans zero_le_one h1)]
  have hfl : ⌊b * m ^ L + 1⌋ ≤ ⌊b * m ^ (L + 1)⌋ := Int.floor_le_floor key
  have hadd : ⌊b * m ^ L + 1⌋ = ⌊b * m ^ L⌋ + 1 := by
    have := Int.floor_add_int (b * m ^ L) 1
    push_cast at this
    exact this
  omega

theorem findSome?_append {α β : Type _} (l1 l2 : List α) (f : α → Option β) :
    (l1 ++ l2).findSome? f = ((l1.findSome? f).orElse fun _ => l2.findSome? f) := by
  induction l1 with
  | nil => simp [List.findSome?_nil]
  | cons a t ih => cases h : f a <;> simp [List.findSome?_cons, h, ih]

theorem range_findSome?_eq_none {α : Type _} (n : Nat) (f : Nat → Option α)
    (h : ∀ i < n, f i = none) : (List.range n).findSome? f = none := by
  rw [List.findSome?_eq_none_iff]
  intro i hi
  exact h i (List.mem_range.mp hi)

/-- `findSome?` over `range n` returns the value at the first index where
the function fires. -/
theorem range_findSome?_first {α : Type _} (n i : Nat) (f : Nat → Option α)
    (hi : i < n) (hnone : ∀ j < i, f j = none) (hv : (f i).isSome) :
    (List.range n).findSome? f = f i := by
  induction n with
  | zero => omega
  | succ n ih =>
    rw [List.range_succ, findSome?_append]
    by_cases hin : i < n
    · rw [ih hin]
      rcases Option.isSome_iff_exists.mp hv with ⟨v, hv'⟩
      simp [hv']
    · have hin' : n = i := by omega
      subst hin'
      rw [range_findSome?_eq_none n f hnone]
      cases h : f n <;> simp [List.findSome?_cons, h, Option.orElse]

end Helpers

theorem getLast?_drop_one_concat {α : Type _} (l : List α) (e : α) (h : l ≠ []) :
    ((l ++ [e]).drop 1).getLast? = some e := by
  cases l with
  | nil => exact absurd rfl h
  | cons a t =>
    simp only [List.cons_append, List.drop_succ_cons, List.drop_zero]
    exact List.getLast?_concat t

/-- C3: `expand(newWidth, newHeight)` returns `false` and leaves the grid
fully unchanged whenever either requested dimension is below the current
one, so `expand` never decreases `width` or `height`; every successful
expand installs the new dimensions and empties the undo history (leaving the
cells untouched). -/
theorem expand_spec (g : Grid) (newWidth newHeight : Nat) :
    ((newWidth < g.width ∨ newHeight < g.height) →
      g.expand newWidth newHeight = (g, false)) ∧
    (g.width ≤ (g.expand newWidth newHeight).1.width ∧
      g.height ≤ (g.expand newWidth newHeight).1.height) ∧
    ((g.expand newWidth newHeight).2 = true →
      (g.expand newWidth newHeight).1.width = newWidth ∧
      (g.expand newWidth newHeight).1.height = newHeight ∧
      (g.expand newWidth newHeight).1.history = [] ∧
      (g.expand newWidth newHeight).1.cells = g.cells) := by
  by_cases h : newWidth < g.width ∨ newHeight < g.height
  · simp [Grid.expand, h]
  · have h' := h
    push_neg at h'
    simp [Grid.expand, h, h'.1, h'.2]

/-- C3 witness: shrinking an expanded 8×8 grid to 2×6 fails and keeps it
unchanged; growing the default grid to 8×8 succeeds, sets the dimensions and
clears the history. -/
theorem expand_spec_witness :
    ((Grid.mk' 8 8).expand 2 6 = (Grid.mk' 8 8, false)) ∧
    (Grid.mk' 4 4).width ≤ ((Grid.mk' 4 4).expand 8 8).1.width ∧
    (((Grid.mk' 4 4).expand 8 8).1.width = 8 ∧
      ((Grid.mk' 4 4).expand 8 8).1.history = []) := by
  have h1 := expand_spec (Grid.mk' 8 8) 2 6
  have h2 := expand_spec (Grid.mk' 4 4) 8 8
  have hs : ((Grid.mk' 4 4).expand 8 8).2 = true := by decide
  exact ⟨h1.1 (Or.inl (by decide)), h2.2.1.1, (h2.2.2 hs).1, (h2.2.2 hs).2.2.1⟩


/-- The pushed-with-eviction history of `Grid.setCell` still ends with the
pushed entry whenever `maxHistory` is positive. -/
theorem hist_push_getLast (g : Grid) (hmax : 0 < g.maxHistory) (E : HistEntry) :
    (if g.maxHistory < (g.history ++ [E]).length then (g.history ++ [E]).drop 1
     else g.history ++ [E]).getLast? = some E := by
  by_cases hlen : g.maxHistory < (g.history ++ [E]).length
  · have hne : g.history ≠ [] := by
      intro hnil
      rw [hnil] at hlen
      simp at hlen
      omega
    rw [if_pos hlen]
    exact getLast?_drop_one_concat _ _ hne
  · rw [if_neg hlen]
    exact List.getLast?_concat _

/-- C2: for a valid coordinate and a color different from the stored one,
`setCell(x, y, c)` followed by `undo()` returns `true` and restores the
pre-`setCell` color; `undo()` on an empty history changes nothing and
returns `false`.  (`maxHistory` is 50 on every grid the program creates;
only positivity is needed.) -/
theorem setCell_undo (g : Grid) (x y : Int) (c : Cell)
    (hmax : 0 < g.maxHistory)
    (hv : g.isValid x y = true) (hne : g.getCell x y ≠ c) :
    ((g.setCell x y c true).1.undo.2 = true ∧
      (g.setCell x y c true).1.undo.1.getCell x y = g.getCell x y) ∧
    (∀ g' : Grid, g'.history = [] → g'.undo = (g', false)) := by
  refine ⟨?_, fun g' hh => by simp [Grid.undo, hh]⟩
  have hget : g.getCell x y = cellsGet g.cells (x, y) := by
    simp [Grid.getCell, hv]
  have hne' : ¬ cellsGet g.cells (x, y) = c := fun hcc => hne (hget.trans hcc)
  rw [hget]
  cases hoc : cellsGet g.cells (x, y) with
  | none =>
    cases c with
    | none => exact absurd (hoc.trans rfl) (hoc ▸ hne')
    | some col =>
      have hs : g.setCell x y (some col) true =
          ({ g with
              cells := cellsSet g.cells (x, y) col,
              history :=
                if g.maxHistory < (g.history ++ [(⟨x, y, none, some col⟩ : HistEntry)]).length then
                  (g.history ++ [(⟨x, y, none, some col⟩ : HistEntry)]).drop 1
                else g.history ++ [(⟨x, y, none, some col⟩ : HistEntry)] }, true) := by
        simp [Grid.setCell, hv, hoc]
      have hl := hist_push_getLast g hmax (⟨x, y, none, some col⟩ : HistEntry)
      rw [hs]
      simp only [Grid.undo]
      rw [hl]
      simp [Grid.getCell, Grid.isValid, hv, cellsGet_cellsErase_self]
  | some oldc =>
    cases c with
    | none =>
      have hs : g.setCell x y none true =
          ({ g with
              cells := cellsErase g.cells (x, y),
              history :=
                if g.maxHistory < (g.history ++ [(⟨x, y, some oldc, none⟩ : HistEntry)]).length then
                  (g.history ++ [(⟨x, y, some oldc, none⟩ : HistEntry)]).drop 1
                else g.history ++ [(⟨x, y, some oldc, none⟩ : HistEntry)] }, true) := by
        simp [Grid.setCell, hv, hoc]
      have hl := hist_push_getLast g hmax (⟨x, y, some oldc, none⟩ : HistEntry)
      rw [hs]
      simp only [Grid.undo]
      rw [hl]
      simp [Grid.getCell, Grid.isValid, hv, cellsGet_cellsSet_self]
      have hv2 := hv
      simp [Grid.isValid] at hv2
      tauto
    | some col =>
      have hcol : ¬ oldc = col := fun hc => hne' (hoc.trans (by rw [hc]))
      have hs : g.setCell x y (some col) true =
          ({ g with
              cells := cellsSet g.cells (x, y) col,
              history :=
                if g.maxHistory < (g.history ++ [(⟨x, y, some oldc, some col⟩ : HistEntry)]).length then
                  (g.history ++ [(⟨x, y, some oldc, some col⟩ : HistEntry)]).drop 1
                else g.history ++ [(⟨x, y, some oldc, some col⟩ : HistEntry)] }, true) := by
        simp [Grid.setCell, hv, hoc, hcol]
      have hl := hist_push_getLast g hmax (⟨x, y, some oldc, some col⟩ : HistEntry)
      rw [hs]
      simp only [Grid.undo]
      rw [hl]
      simp [Grid.getCell, Grid.isValid, hv, cellsGet_cellsSet_self]
      have hv2 := hv
      simp [Grid.isValid] at hv2
      tauto

/-- C2 witness: on the fresh 4×4 grid, painting (0,0) black and undoing
restores the empty cell and reports `true`. -/
theorem setCell_undo_witness :
    (0 < (Grid.mk' 4 4).maxHistory ∧ (Grid.mk' 4 4).isValid 0 0 = true ∧
      (Grid.mk' 4 4).getCell 0 0 ≠ some "black") ∧
    ((Grid.mk' 4 4).setCell 0 0 (some "black") true).1.undo.2 = true ∧
    ((Grid.mk' 4 4).setCell 0 0 (some "black") true).1.undo.1.getCell 0 0 =
      (Grid.mk' 4 4).getCell 0 0 := by
  have h := setCell_undo (Grid.mk' 4 4) 0 0 (some "black")
    (by decide) (by decide) (by decide)
  exact ⟨⟨by decide, by decide, by decide⟩, h.1.1, h.1.2⟩

/-- C5 counterexample: painting (0,0) black and then erasing it leaves an
empty cell store with a two-entry history; `clear()` on that grid is a no-op
that keeps the history, so the immediately following `undo()` returns `true`
— the claim's "empty undo history after clear, for every starting state" is
false. -/
theorem clear_keeps_history_counterexample :
    ((((Grid.mk' 4 4).setCell 0 0 (some "black") true).1.setCell 0 0 none true).1.cells
        = [] ∧
      ((((Grid.mk' 4 4).setCell 0 0 (some "black") true).1.setCell 0 0 none
          true).1.clear).1.undo.2 = true) := by
  decide

/-- C5 amended: after `clear()` the cell store is always empty, and when at
least one cell was stored the history is emptied too (so an immediately
following `undo()` returns `false`) and the `gridCleared` event fires; when
the cell store is already empty, `clear()` is a no-op that emits no event
and changes nothing — in particular it leaves any remaining undo history in
place. -/
theorem clear_spec (g : Grid) :
    ((g.clear).1.cells = []) ∧
    (g.cells ≠ [] →
      (g.clear).1.history = [] ∧ (g.clear).1.undo = ((g.clear).1, false) ∧
        (g.clear).2 = true) ∧
    (g.cells = [] → g.clear = (g, false)) := by
  by_cases h : g.cells = []
  · simp [Grid.clear, h]
  · simp [Grid.clear, h, Grid.undo]

/-- C5 witness: a grid holding one black cell clears to empty cells and
empty history; the fresh empty grid is returned unchanged with no event. -/
theorem clear_spec_witness :
    ((((Grid.mk' 4 4).setCell 0 0 (some "black") true).1.clear).1.cells = [] ∧
      (((Grid.mk' 4 4).setCell 0 0 (some "black") true).1.clear).1.history = []) ∧
    (Grid.mk' 4 4).clear = (Grid.mk' 4 4, false) := by
  have h1 := clear_spec ((Grid.mk' 4 4).setCell 0 0 (some "black") true).1
  have h2 := clear_spec (Grid.mk' 4 4)
  exact ⟨⟨h1.1, (h1.2.1 (by decide)).1⟩, h2.2.2 (by decide)⟩

/-- C7: `canAccessRank` is monotone in the progression snapshot — more
completed contracts, a larger minimum grid dimension and a superset of
unlocked colors can only keep a rank accessible. -/
theorem canAccessRank_monotone (r : Rank) (cc1 cc2 gs1 gs2 : Nat) (u1 u2 : List Color)
    (hcc : cc1 ≤ cc2) (hgs : gs1 ≤ gs2) (hu : ∀ c, c ∈ u1 → c ∈ u2)
    (h : canAccessRank r cc1 gs1 u1 = true) :
    canAccessRank r cc2 gs2 u2 = true := by
  unfold canAccessRank at h ⊢
  by_cases h1 : cc1 < r.contractsRequired
  · rw [if_pos h1] at h
    exact absurd h (by simp)
  · rw [if_neg h1] at h
    by_cases h2 : gs1 < r.minGridSize
    · rw [if_pos h2] at h
      exact absurd h (by simp)
    · rw [if_neg h2] at h
      rw [if_neg (by omega : ¬ cc2 < r.contractsRequired),
        if_neg (by omega : ¬ gs2 < r.minGridSize)]
      rw [List.all_eq_true] at h ⊢
      intro c hcmem
      exact List.elem_iff.mpr (hu c (List.elem_iff.mp (h c hcmem)))

/-- C7 witness: Journeyman stays accessible when the snapshot grows from
(10 contracts, 6×6, black/white) to (12 contracts, 8×8, black/white/red). -/
theorem canAccessRank_monotone_witness :
    canAccessRank (getRank 3) 10 6 ["black", "white"] = true ∧
    canAccessRank (getRank 3) 12 8 ["black", "white", "red"] = true := by
  have h0 : canAccessRank (getRank 3) 10 6 ["black", "white"] = true := by decide
  exact ⟨h0, canAccessRank_monotone (getRank 3) 10 12 6 8 ["black", "white"]
    ["black", "white", "red"] (by omega) (by omega) (by decide) h0⟩

/-- C6: `GameState.deserialize` returns `false` and leaves the state
untouched whenever the data is missing or its version tag differs from 2, 3
and 4; only those three tags proceed to the load path (which reports
`true`). -/
theorem deserialize_version_guard (s : GameState) (d : Option SaveData) :
    (d = none → s.deserialize d = some (s, false)) ∧
    (∀ dd, d = some dd →
      ((dd.version ≠ some 2 ∧ dd.version ≠ some 3 ∧ dd.version ≠ some 4) →
        s.deserialize d = some (s, false)) ∧
      ((dd.version = some 2 ∨ dd.version = some 3 ∨ dd.version = some 4) →
        ∀ r, s.deserialize d = some r → r.2 = true)) := by
  refine ⟨fun hd => by rw [hd]; rfl, fun dd hd => ?_⟩
  subst hd
  constructor
  · intro hv
    have hcond : ¬ (dd.version = some 2 ∨ dd.version = some 3 ∨ dd.version = some 4) := by
      tauto
    simp [GameState.deserialize, hcond]
  · intro hv r hr
    have hcond : ¬ ¬ (dd.version = some 2 ∨ dd.version = some 3 ∨ dd.version = some 4) :=
      not_not_intro hv
    simp only [GameState.deserialize, if_neg hcond] at hr
    cases hgrid : dd.grid with
    | none =>
      rw [hgrid] at hr
      simp at hr
    | some gd =>
      rw [hgrid] at hr
      simp only [Option.some.injEq] at hr
      rw [← hr]

/-- C6 witness: a version-5 save and a missing save are both rejected
without touching the fresh state. -/
theorem deserialize_version_guard_witness :
    GameState.init.deserialize
        (some ⟨some 5, none, none, none, none, none, none, none, none, none, none⟩) =
      some (GameState.init, false) ∧
    GameState.init.deserialize none = some (GameState.init, false) := by
  have h := deserialize_version_guard GameState.init
    (some ⟨some 5, none, none, none, none, none, none, none, none, none, none⟩)
  have h2 := deserialize_version_guard GameState.init none
  exact ⟨(h.2 _ rfl).1 (by decide), h2.1 rfl⟩

/-- C8: for every catalog upgrade the cost at owned level `L` is
`⌊baseCost · costMultiplier ^ L⌋`, strictly increasing in `L` when the
multiplier exceeds 1 and constant when it equals 1; per-color auto-painter
upgrades all use the shared config (base 75, multiplier 1.5), likewise
strictly increasing. -/
theorem upgradeCost_spec (u : UpgradeDef) (hu : u ∈ UPGRADES) (L : Nat) :
    (getUpgradeCost u.id L = some ⌊u.baseCost * u.costMultiplier ^ L⌋ ∧
      (1 < u.costMultiplier →
        ⌊u.baseCost * u.costMultiplier ^ L⌋ < ⌊u.baseCost * u.costMultiplier ^ (L + 1)⌋) ∧
      (u.costMultiplier = 1 → ⌊u.baseCost * u.costMultiplier ^ L⌋ = ⌊u.baseCost⌋)) ∧
    (∀ colorId ∈ COLOR_IDS,
      getUpgradeCost ("auto_painter_" ++ colorId) L =
          some ⌊AUTO_PAINTER_CONFIG.baseCost * AUTO_PAINTER_CONFIG.costMultiplier ^ L⌋ ∧
        ⌊AUTO_PAINTER_CONFIG.baseCost * AUTO_PAINTER_CONFIG.costMultiplier ^ L⌋ <
          ⌊AUTO_PAINTER_CONFIG.baseCost * AUTO_PAINTER_CONFIG.costMultiplier ^ (L + 1)⌋) := by
  constructor
  · fin_cases hu
    · exact ⟨rfl, fun hm => absurd hm (by norm_num), fun _ => by norm_num⟩
    · exact ⟨rfl, fun _ => floor_geom_strict 40 2 (by norm_num) (by norm_num) L,
        fun h1 => absurd h1 (by norm_num)⟩
    · exact ⟨rfl, fun _ => floor_geom_strict 200 (5/2) (by norm_num) (by norm_num) L,
        fun h1 => absurd h1 (by norm_num)⟩
    · exact ⟨rfl, fun _ => floor_geom_strict 75 (3/2) (by norm_num) (by norm_num) L,
        fun h1 => absurd h1 (by norm_num)⟩
    · exact ⟨rfl, fun hm => absurd hm (by norm_num), fun _ => by norm_num⟩
    · exact ⟨rfl, fun hm => absurd hm (by norm_num), fun _ => by norm_num⟩
    · exact ⟨rfl, fun hm => absurd hm (by norm_num), fun _ => by norm_num⟩
    · exact ⟨rfl, fun _ => floor_geom_strict 500 (11/5) (by norm_num) (by norm_num) L,
        fun h1 => absurd h1 (by norm_num)⟩
  · intro colorId hc
    fin_cases hc <;>
      exact ⟨rfl, floor_geom_strict 75 (3/2) (by norm_num) (by norm_num) L⟩

/-- C8 witness: the Money Boost upgrade at level 2. -/
theorem upgradeCost_spec_witness :
    getUpgradeCost "money_boost" 2 = some ⌊(40 : ℚ) * (2 : ℚ) ^ 2⌋ ∧
    ⌊(40 : ℚ) * (2 : ℚ) ^ 2⌋ < ⌊(40 : ℚ) * (2 : ℚ) ^ 3⌋ ∧
    getUpgradeCost "money_boost" 2 = some 160 := by
  have h := upgradeCost_spec ⟨"money_boost", "Money Boost", 40, 2, 20⟩
    (by simp [UPGRADES]) 2
  exact ⟨h.1.1, h.1.2.1 (by norm_num), h.1.1.trans (by norm_num)⟩

theorem clear_cells (g : Grid) : (g.clear).1.cells = [] := by
  by_cases h : g.cells = [] <;> simp [Grid.clear, h]

theorem gridMatchesPattern_iff (g : Grid) (p : List (List Cell)) :
    GameState.gridMatchesPattern g p = true ↔
      ∀ y < g.height, ∀ x < g.width,
        GameState.patternAt p x y = g.getCell (x : Int) (y : Int) := by
  simp [GameState.gridMatchesPattern, List.all_eq_true, List.mem_range,
    decide_eq_true_iff]

/-- C1: with an active contract, the completion check completes the contract
iff every grid coordinate agrees exactly with the pattern (pattern-empty
cells empty, pattern-colored cells holding exactly that color); on
completion the reward is added to the money, `completedContracts` goes up by
one, the contract is cleared and the grid is emptied; on any mismatch the
state — in particular the active contract — is left untouched. -/
theorem checkContractCompletion_spec (s : GameState) (c : Contract)
    (hc : s.activeContract = some c) (hr : 0 < c.reward) :
    (s.checkContractCompletion.activeContract = none ↔
      ∀ y < s.grid.height, ∀ x < s.grid.width,
        GameState.patternAt c.pattern x y = s.grid.getCell (x : Int) (y : Int)) ∧
    ((∀ y < s.grid.height, ∀ x < s.grid.width,
        GameState.patternAt c.pattern x y = s.grid.getCell (x : Int) (y : Int)) →
      s.checkContractCompletion.money = s.money + c.reward ∧
        s.checkContractCompletion.completedContracts = s.completedContracts + 1 ∧
        s.checkContractCompletion.grid.cells = []) ∧
    (¬ (∀ y < s.grid.height, ∀ x < s.grid.width,
        GameState.patternAt c.pattern x y = s.grid.getCell (x : Int) (y : Int)) →
      s.checkContractCompletion = s) := by
  have hmatch := gridMatchesPattern_iff s.grid c.pattern
  have hrn : ¬ c.reward ≤ 0 := not_le.mpr hr
  by_cases hm : GameState.gridMatchesPattern s.grid c.pattern = true
  · have hall := hmatch.mp hm
    have hs' : s.checkContractCompletion = (s.completeActiveContract).1 := by
      simp [GameState.checkContractCompletion, hc, hm]
    refine ⟨?_, fun _ => ⟨?_, ?_, ?_⟩, fun hno => absurd hall hno⟩
    · rw [hs']
      refine iff_of_true ?_ hall
      simp [GameState.completeActiveContract, hc]
    · rw [hs']
      simp [GameState.completeActiveContract, hc, GameState.addMoney, hrn]
    · rw [hs']
      simp [GameState.completeActiveContract, hc, GameState.addMoney, hrn]
    · rw [hs']
      simp [GameState.completeActiveContract, hc, clear_cells]
  · have hno : ¬ ∀ y < s.grid.height, ∀ x < s.grid.width,
        GameState.patternAt c.pattern x y = s.grid.getCell (x : Int) (y : Int) :=
      fun hall => hm (hmatch.mpr hall)
    have hs' : s.checkContractCompletion = s := by
      simp [GameState.checkContractCompletion, hc, hm]
    refine ⟨?_, fun hall => absurd hall hno, fun _ => hs'⟩
    rw [hs', hc]
    simp [hno]

/-- A concrete state for exercising the completion check: a rank-1 contract
whose pattern wants exactly (0,0) black, with that cell already painted. -/
def completionWitnessState : GameState :=
  { GameState.init with
    activeContract := some ⟨1, 1, "Novice", [[some "black"]], 5, 1⟩,
    grid := ((Grid.mk' 4 4).setCell 0 0 (some "black") true).1 }

/-- C1 witness: on the matching grid the completion check pays the reward
and clears the contract. -/
theorem checkContractCompletion_spec_witness :
    completionWitnessState.checkContractCompletion.money = 5 ∧
    completionWitnessState.checkContractCompletion.activeContract = none := by
  have h := checkContractCompletion_spec completionWitnessState
    ⟨1, 1, "Novice", [[some "black"]], 5, 1⟩ rfl (by norm_num)
  refine ⟨?_, h.1.mpr (by decide)⟩
  have hm := (h.2.1 (by decide)).1
  simpa using hm

/-- C9 counterexample: rank level 99 is not in the catalog, yet
`generateContract(99)` on the fresh state returns a contract — and its
`rankLevel` is 1, not 99 — because `getRank` falls back to `RANKS[0]`. -/
theorem generateContract_unknown_rank_counterexample :
    (ContractSystem.generateContract GameState.init 0 (fun _ _ => [[some "black"]])
        (some 99)).map Contract.rankLevel = some 1 ∧ (99 : Nat) ≠ 1 := by
  constructor
  · rfl
  · decide

/-- C9 amended: `generateContract(some level)` resolves the level through
`getRank`, which falls back to rank 1 (Novice) for levels absent from the
catalog; it returns nothing iff the *resolved* rank is inaccessible under
the current snapshot, and a returned contract's `rankLevel` is the resolved
rank's level — equal to the requested level exactly when that level exists
in the catalog. -/
theorem generateContract_spec (s : GameState) (counter : Nat)
    (oracle : Rank → Nat → List (List Cell)) (level : Nat) :
    (ContractSystem.generateContract s counter oracle (some level) = none ↔
      canAccessRank (getRank level) s.completedContracts
        (min s.grid.width s.grid.height) s.unlockedColors = false) ∧
    (∀ c, ContractSystem.generateContract s counter oracle (some level) = some c →
      c.rankLevel = (getRank level).level) ∧
    ((∃ r ∈ RANKS, r.level = level) → (getRank level).level = level) := by
  refine ⟨?_, ?_, ?_⟩
  · cases hacc : canAccessRank (getRank level) s.completedContracts
        (min s.grid.width s.grid.height) s.unlockedColors <;>
      simp [ContractSystem.generateContract, hacc]
  · intro c hcg
    cases hacc : canAccessRank (getRank level) s.completedContracts
        (min s.grid.width s.grid.height) s.unlockedColors
    · simp [ContractSystem.generateContract, hacc] at hcg
    · simp [ContractSystem.generateContract, hacc] at hcg
      rw [← hcg]
  · rintro ⟨r, hrmem, hrlev⟩
    unfold getRank
    cases hf : RANKS.find? (fun r' => r'.level = level) with
    | none =>
      rw [List.find?_eq_none] at hf
      exact absurd (by simpa using hrlev) (hf r hrmem)
    | some r' =>
      have := List.find?_some hf
      simpa using this

/-- C9 witness: requesting the catalog rank 1 on the fresh state yields a
contract, and `getRank` preserves catalog levels. -/
theorem generateContract_spec_witness :
    (getRank 1).level = 1 ∧
    ContractSystem.generateContract GameState.init 0 (fun _ _ => [[some "black"]])
        (some 1) ≠ none := by
  have h := generateContract_spec GameState.init 0 (fun _ _ => [[some "black"]]) 1
  refine ⟨h.2.2 ⟨⟨1, "Novice", 0, 4, ["black", "white"], "simple", 1⟩, by decide, rfl⟩, ?_⟩
  intro hn
  have hfalse := h.1.mp hn
  rw [show canAccessRank (getRank 1) GameState.init.completedContracts
      (min GameState.init.grid.width GameState.init.grid.height)
      GameState.init.unlockedColors = true by decide] at hfalse
  exact absurd hfalse (by decide)

/-- The scan condition of `AutoPainterSystem.paintNextCell`: the pattern
expects `c` at `(x, y)` and the grid does not yet hold it. -/
def needsColor (pattern : List (List Cell)) (g : Grid) (c : Color) (x y : Nat) : Prop :=
  GameState.patternAt pattern x y = some c ∧ g.getCell (x : Int) (y : Int) ≠ some c

instance needsColor.decidable (pattern : List (List Cell)) (g : Grid) (c : Color)
    (x y : Nat) : Decidable (needsColor pattern g c x y) := by
  unfold needsColor
  infer_instance

/-- C10: with an active contract, one paint attempt for `colorId` paints —
through the same `setCell` path as a manual edit, history and completion
check included — exactly the first coordinate in row-major order whose
pattern entry is `colorId` and whose grid cell does not already hold it;
when no such coordinate exists it returns `false` and mutates nothing. -/
theorem paintNextCell_spec (s : GameState) (ct : Contract) (colorId : Color)
    (hc : s.activeContract = some ct) :
    ((∀ y < s.grid.height, ∀ x < s.grid.width,
        ¬ needsColor ct.pattern s.grid colorId x y) →
      AutoPainterSystem.paintNextCell s colorId = (s, false)) ∧
    (∀ x y, x < s.grid.width → y < s.grid.height →
      needsColor ct.pattern s.grid colorId x y →
      (∀ y' < y, ∀ x' < s.grid.width, ¬ needsColor ct.pattern s.grid colorId x' y') →
      (∀ x' < x, ¬ needsColor ct.pattern s.grid colorId x' y) →
      AutoPainterSystem.paintNextCell s colorId =
        ((s.setCell (x : Int) (y : Int) (some colorId)).1, true)) := by
  constructor
  · intro hno
    have htarget : (List.range s.grid.height).findSome? (fun y =>
        (List.range s.grid.width).findSome? fun x =>
          if GameState.patternAt ct.pattern x y = some colorId ∧
              s.grid.getCell (x : Int) (y : Int) ≠ some colorId
          then some (x, y) else none) = none := by
      apply range_findSome?_eq_none
      intro y hy
      apply range_findSome?_eq_none
      intro x hx
      have hn := hno y hy x hx
      unfold needsColor at hn
      exact if_neg hn
    simp [AutoPainterSystem.paintNextCell, hc, htarget]
  · intro x y hx hy hneed hrow hcol
    have hneed' := hneed
    unfold needsColor at hneed'
    have hfx : (fun xx =>
        if GameState.patternAt ct.pattern xx y = some colorId ∧
            s.grid.getCell (xx : Int) (y : Int) ≠ some colorId
        then some (xx, y) else none) x = some (x, y) := if_pos hneed'
    have hFy : (List.range s.grid.width).findSome? (fun xx =>
        if GameState.patternAt ct.pattern xx y = some colorId ∧
            s.grid.getCell (xx : Int) (y : Int) ≠ some colorId
        then some (xx, y) else none) = some (x, y) := by
      have h1 := range_findSome?_first s.grid.width x
        (fun xx =>
          if GameState.patternAt ct.pattern xx y = some colorId ∧
              s.grid.getCell (xx : Int) (y : Int) ≠ some colorId
          then some (xx, y) else none)
        hx
        (fun j hj => by
          have hn := hcol j hj
          unfold needsColor at hn
          exact if_neg hn)
        (by rw [hfx]; rfl)
      exact h1.trans hfx
    have hFouter : (List.range s.grid.height).findSome? (fun yy =>
        (List.range s.grid.width).findSome? fun xx =>
          if GameState.patternAt ct.pattern xx yy = some colorId ∧
              s.grid.getCell (xx : Int) (yy : Int) ≠ some colorId
          then some (xx, yy) else none) = some (x, y) := by
      have hFyApp : (fun yy =>
          (List.range s.grid.width).findSome? fun xx =>
            if GameState.patternAt ct.pattern xx yy = some colorId ∧
                s.grid.getCell (xx : Int) (yy : Int) ≠ some colorId
            then some (xx, yy) else none) y = some (x, y) := hFy
      have h2 := range_findSome?_first s.grid.height y
        (fun yy =>
          (List.range s.grid.width).findSome? fun xx =>
            if GameState.patternAt ct.pattern xx yy = some colorId ∧
                s.grid.getCell (xx : Int) (yy : Int) ≠ some colorId
            then some (xx, yy) else none)
        hy
        (fun j hj => by
          apply range_findSome?_eq_none
          intro xx hxx
          have hn := hrow j hj xx hxx
          unfold needsColor at hn
          exact if_neg hn)
        (by rw [hFyApp]; rfl)
      exact h2.trans hFyApp
    simp [AutoPainterSystem.paintNextCell, hc, hFouter]

/-- A concrete state for exercising the auto-painter: an active contract
whose pattern wants (1,0) red, on the fresh empty grid. -/
def paintWitnessState : GameState :=
  { GameState.init with
    activeContract := some ⟨2, 1, "Novice", [[none, some "red"]], 5, 1⟩ }

/-- C10 witness: the painter for red paints exactly (1,0) — the first
row-major coordinate needing red — through the manual-edit path. -/
theorem paintNextCell_spec_witness :
    AutoPainterSystem.paintNextCell paintWitnessState "red" =
      ((paintWitnessState.setCell ((1 : Nat) : Int) ((0 : Nat) : Int) (some "red")).1,
        true) := by
  have h := paintNextCell_spec paintWitnessState
    ⟨2, 1, "Novice", [[none, some "red"]], 5, 1⟩ "red" rfl
  exact h.2 1 0 (by decide) (by decide) (by decide) (by decide) (by decide)

/-- The coordinate-bounds predicate of the spec's grid invariant. -/
def Grid.InBounds (g : Grid) (x y : Int) : Prop :=
  0 ≤ x ∧ x < (g.width : Int) ∧ 0 ≤ y ∧ y < (g.height : Int)

instance Grid.InBounds.decidable (g : Grid) (x y : Int) : Decidable (g.InBounds x y) := by
  unfold Grid.InBounds
  infer_instance

/-- The grid well-formedness invariant: every stored cell coordinate and
every recorded history coordinate lies within the current bounds. -/
def Grid.WF (g : Grid) : Prop :=
  (∀ e ∈ g.cells, g.InBounds e.1.1 e.1.2) ∧ ∀ e ∈ g.history, g.InBounds e.x e.y

instance Grid.WF.decidable (g : Grid) : Decidable g.WF := by
  unfold Grid.WF
  infer_instance

theorem isValid_iff (g : Grid) (x y : Int) : g.isValid x y = true ↔ g.InBounds x y := by
  simp [Grid.isValid, Grid.InBounds, and_assoc]

/-- The changed-cell case of `Grid.setCell` written out as an equation. -/
theorem setCell_changed_eq (g : Grid) (x y : Int) (c : Cell) (rh : Bool)
    (hv : g.isValid x y = true) (hne : ¬ cellsGet g.cells (x, y) = c) :
    g.setCell x y c rh =
      ({ g with
          cells :=
            match c with
            | none => cellsErase g.cells (x, y)
            | some col => cellsSet g.cells (x, y) col,
          history :=
            if rh then
              if g.maxHistory <
                  (g.history ++ [(⟨x, y, cellsGet g.cells (x, y), c⟩ : HistEntry)]).length
              then (g.history ++ [(⟨x, y, cellsGet g.cells (x, y), c⟩ : HistEntry)]).drop 1
              else g.history ++ [(⟨x, y, cellsGet g.cells (x, y), c⟩ : HistEntry)]
            else g.history }, true) := by
  cases c <;> simp [Grid.setCell, hv, hne]

theorem setCell_WF (g : Grid) (hg : g.WF) (x y : Int) (c : Cell) (rh : Bool) :
    (g.setCell x y c rh).1.WF ∧ (g.setCell x y c rh).1.width = g.width ∧
      (g.setCell x y c rh).1.height = g.height := by
  by_cases hv : g.isValid x y = true
  · by_cases heq : cellsGet g.cells (x, y) = c
    · have : g.setCell x y c rh = (g, false) := by simp [Grid.setCell, hv, heq]
      rw [this]
      exact ⟨hg, rfl, rfl⟩
    · rw [setCell_changed_eq g x y c rh hv heq]
      have hxy : g.InBounds x y := (isValid_iff g x y).mp hv
      refine ⟨⟨?_, ?_⟩, rfl, rfl⟩
      · cases c with
        | none => exact fun e he => hg.1 e (mem_cellsErase _ _ _ he)
        | some col =>
          intro e he
          rcases mem_cellsSet _ _ _ _ he with h | h
          · exact hg.1 e h
          · rw [h]
            exact hxy
      · cases rh with
        | false => exact hg.2
        | true =>
          intro e he
          rw [if_pos rfl] at he
          have hmem : e ∈ g.history ++ [(⟨x, y, cellsGet g.cells (x, y), c⟩ : HistEntry)] := by
            by_cases hlen :
                g.maxHistory <
                  (g.history ++ [(⟨x, y, cellsGet g.cells (x, y), c⟩ : HistEntry)]).length
            · rw [if_pos hlen] at he
              exact List.mem_of_mem_drop he
            · rw [if_neg hlen] at he
              exact he
          rcases List.mem_append.mp hmem with h | h
          · exact hg.2 e h
          · rw [List.mem_singleton.mp h]
            exact hxy
  · have : g.setCell x y c rh = (g, false) := by simp [Grid.setCell, hv]
    rw [this]
    exact ⟨hg, rfl, rfl⟩

theorem setCellsGo_WF (changes : List (Int × Int × Cell)) (rh : Bool) :
    ∀ (g : Grid) (count : Nat), g.WF →
      (g.setCellsGo changes rh count).1.WF ∧
      (g.setCellsGo changes rh count).1.width = g.width ∧
      (g.setCellsGo changes rh count).1.height = g.height := by
  induction changes with
  | nil => exact fun g count hg => ⟨hg, rfl, rfl⟩
  | cons ch rest ih =>
    intro g count hg
    obtain ⟨x, y, c⟩ := ch
    by_cases hv : g.isValid x y = true
    · by_cases heq : cellsGet g.cells (x, y) = c
      · have hskip : g.setCellsGo ((x, y, c) :: rest) rh count = g.setCellsGo rest rh count := by
          simp [Grid.setCellsGo, hv, heq]
        rw [hskip]
        exact ih g count hg
      · have hxy : g.InBounds x y := (isValid_iff g x y).mp hv
        have hhist : ∀ cc : Cell,
            (∀ e ∈ (if rh then
                g.history ++ [(⟨x, y, cellsGet g.cells (x, y), cc⟩ : HistEntry)]
              else g.history), g.InBounds e.x e.y) := by
          intro cc
          cases rh with
          | false => exact hg.2
          | true =>
            intro e he
            rw [if_pos rfl] at he
            rcases List.mem_append.mp he with h | h
            · exact hg.2 e h
            · rw [List.mem_singleton.mp h]
              exact hxy
        cases c with
        | none =>
          have hstep : g.setCellsGo ((x, y, none) :: rest) rh count =
              Grid.setCellsGo
                { g with
                  cells := cellsErase g.cells (x, y),
                  history :=
                    if rh then
                      g.history ++ [(⟨x, y, cellsGet g.cells (x, y), none⟩ : HistEntry)]
                    else g.history }
                rest rh (count + 1) := by
            simp [Grid.setCellsGo, hv, heq]
          rw [hstep]
          exact ih _ (count + 1)
            ⟨fun e he => hg.1 e (mem_cellsErase _ _ _ he), hhist none⟩
        | some col =>
          have hstep : g.setCellsGo ((x, y, some col) :: rest) rh count =
              Grid.setCellsGo
                { g with
                  cells := cellsSet g.cells (x, y) col,
                  history :=
                    if rh then
                      g.history ++ [(⟨x, y, cellsGet g.cells (x, y), some col⟩ : HistEntry)]
                    else g.history }
                rest rh (count + 1) := by
            simp [Grid.setCellsGo, hv, heq]
          rw [hstep]
          refine ih _ (count + 1) ⟨?_, hhist (some col)⟩
          intro e he
          rcases mem_cellsSet _ _ _ _ he with h | h
          · exact hg.1 e h
          · rw [h]
            exact hxy
    · have hskip : g.setCellsGo ((x, y, c) :: rest) rh count = g.setCellsGo rest rh count := by
        simp [Grid.setCellsGo, hv]
      rw [hskip]
      exact ih g count hg

theorem setCells_WF (g : Grid) (hg : g.WF) (changes : List (Int × Int × Cell)) (rh : Bool) :
    (g.setCells changes rh).1.WF ∧ (g.setCells changes rh).1.width = g.width ∧
      (g.setCells changes rh).1.height = g.height := by
  have hgo := setCellsGo_WF changes rh g 0 hg
  simp only [Grid.setCells]
  by_cases htrim :
      (g.setCellsGo changes rh 0).1.maxHistory < (g.setCellsGo changes rh 0).1.history.length
  · rw [if_pos htrim]
    refine ⟨⟨hgo.1.1, ?_⟩, hgo.2.1, hgo.2.2⟩
    exact fun e he => hgo.1.2 e (List.mem_of_mem_drop he)
  · rw [if_neg htrim]
    exact hgo

theorem undo_WF (g : Grid) (hg : g.WF) :
    (g.undo).1.WF ∧ (g.undo).1.width = g.width ∧ (g.undo).1.height = g.height := by
  cases hl : g.history.getLast? with
  | none =>
    have : g.undo = (g, false) := by simp [Grid.undo, hl]
    rw [this]
    exact ⟨hg, rfl, rfl⟩
  | some e =>
    have he : e ∈ g.history := List.mem_of_mem_getLast? hl
    have hxy := hg.2 e he
    simp only [Grid.undo, hl]
    refine ⟨⟨?_, ?_⟩, by simp, by simp⟩
    · cases hoc : e.oldColor with
      | none =>
        simp only [hoc]
        exact fun ee hee => hg.1 ee (mem_cellsErase _ _ _ hee)
      | some col =>
        simp only [hoc]
        intro ee hee
        rcases mem_cellsSet _ _ _ _ hee with h | h
        · exact hg.1 ee h
        · rw [h]
          exact hxy
    · exact fun ee hee => hg.2 ee (List.dropLast_subset _ hee)

theorem clear_WF (g : Grid) (hg : g.WF) :
    (g.clear).1.WF ∧ (g.clear).1.width = g.width ∧ (g.clear).1.height = g.height := by
  by_cases h : g.cells = []
  · have : g.clear = (g, false) := by simp [Grid.clear, h]
    rw [this]
    exact ⟨hg, rfl, rfl⟩
  · have : g.clear = ({ g with cells := [], history := [] }, true) := by simp [Grid.clear, h]
    rw [this]
    exact ⟨⟨by simp, by simp⟩, rfl, rfl⟩

theorem expand_WF (g : Grid) (hg : g.WF) (nw nh : Nat) :
    (g.expand nw nh).1.WF ∧ g.width ≤ (g.expand nw nh).1.width ∧
      g.height ≤ (g.expand nw nh).1.height := by
  by_cases h : nw < g.width ∨ nh < g.height
  · have : g.expand nw nh = (g, false) := by simp [Grid.expand, h]
    rw [this]
    exact ⟨hg, le_refl _, le_refl _⟩
  · push_neg at h
    have : g.expand nw nh =
        ({ g with width := nw, height := nh, history := [] }, true) := by
      simp [Grid.expand, not_or, h.1, h.2]
    rw [this]
    refine ⟨⟨?_, by simp⟩, h.1, h.2⟩
    intro e he
    have hb := hg.1 e he
    unfold Grid.InBounds at hb ⊢
    have hw : (g.width : Int) ≤ (nw : Int) := by exact_mod_cast h.1
    have hh : (g.height : Int) ≤ (nh : Int) := by exact_mod_cast h.2
    exact ⟨hb.1, lt_of_lt_of_le hb.2.1 hw, hb.2.2.1, lt_of_lt_of_le hb.2.2.2 hh⟩

/-- C4 amended: through the Grid's own mutating operations — `setCell`,
`setCells`, `undo`, `clear` and `expand` — every stored cell coordinate and
every history coordinate stays within `0 ≤ x < width`, `0 ≤ y < height`, and
the dimensions never decrease.  (`Grid.deserialize`, by contrast, replaces
the dimensions with the saved document's — shrinking them when the save is
smaller, the `expand` call in `GameState.deserialize` notwithstanding — and
loads saved cells without a bounds check; see the counterexample.) -/
theorem grid_invariants (g : Grid) (hg : g.WF) :
    (∀ (x y : Int) (c : Cell) (rh : Bool),
      (g.setCell x y c rh).1.WF ∧ (g.setCell x y c rh).1.width = g.width ∧
        (g.setCell x y c rh).1.height = g.height) ∧
    (∀ (changes : List (Int × Int × Cell)) (rh : Bool),
      (g.setCells changes rh).1.WF ∧ (g.setCells changes rh).1.width = g.width ∧
        (g.setCells changes rh).1.height = g.height) ∧
    ((g.undo).1.WF ∧ (g.undo).1.width = g.width ∧ (g.undo).1.height = g.height) ∧
    ((g.clear).1.WF ∧ (g.clear).1.width = g.width ∧ (g.clear).1.height = g.height) ∧
    (∀ nw nh : Nat,
      (g.expand nw nh).1.WF ∧ g.width ≤ (g.expand nw nh).1.width ∧
        g.height ≤ (g.expand nw nh).1.height) :=
  ⟨fun x y c rh => setCell_WF g hg x y c rh,
   fun changes rh => setCells_WF g hg changes rh,
   undo_WF g hg, clear_WF g hg,
   fun nw nh => expand_WF g hg nw nh⟩

/-- C4 witness: the fresh 4×4 grid is well-formed, and painting a cell or
expanding preserves the invariant. -/
theorem grid_invariants_witness :
    (Grid.mk' 4 4).WF ∧
    ((Grid.mk' 4 4).setCell 0 0 (some "black") true).1.WF ∧
    ((Grid.mk' 4 4).expand 8 8).1.WF := by
  have h := grid_invariants (Grid.mk' 4 4) (by decide)
  exact ⟨by decide, (h.1 0 0 (some "black") true).1, (h.2.2.2.2 8 8).1⟩

/-- C4 counterexample: loading a version-4 save with a 4×4 grid into a state
whose grid is 8×8 shrinks the grid back to 4×4 (`deserialize` reports
success), so deserialization does decrease `width`/`height`. -/
theorem deserialize_shrinks_counterexample :
    (GameState.init.expandGrid 8 8).1.grid.width = 8 ∧
    ((GameState.init.expandGrid 8 8).1.deserialize
        (some ⟨some 4, some ⟨some 4, some 4, some (.sparse [])⟩, none, none, none, none,
          none, none, none, none, none⟩)).map (fun r => (r.1.grid.width, r.2)) =
      some (4, true) := by
  constructor
  · rfl
  · rfl
